import Mathlib

/-!
Shallow embedding of `src/ShelveDB.py` (promto-c/shelve-db).

The repository is an embedded document store over Python's `shelve` module:
string keys map to records (string-keyed attribute maps), with CRUD
operations (`insert`, `update`, `delete`, `clear`, `new`) and a query
engine (`QueryConditions` predicates plus column projection in
`ShelveDB.query`).

Modelling decisions:
* Python dicts are modelled as association lists that keep insertion order
  and have one entry per key, exactly like a Python dict; assignment
  (`d[k] = v`) replaces the first occurrence in place or appends.
* The value universe of a record is the spec's fixed universe
  (string, integer, boolean, list, nested mapping) plus `None`.
* Python truthiness (`bool(x)`) is `Value.truthy`.
* `fnmatch.fnmatch` and `re.search` are external library collaborators;
  they are modelled as abstract matcher parameters. `re.search` can raise
  `re.error` on a malformed pattern, so the fallible pipeline below also
  models predicates returning `Except`.
* `str.isdigit` and `int` follow the Unicode character database used by
  CPython (version 14.0): `isdigit` accepts the characters with
  Numeric_Type=Decimal or Numeric_Type=Digit, and `int` parses exactly the
  decimal (Numeric_Type=Decimal) digits by digit value, raising
  `ValueError` otherwise — so `ShelveDB.new` is fallible.
* `shelve` itself is an external collaborator (a durable string-keyed map);
  the database content visible to one operation is modelled as the
  association list `Db`, and each operation is a function on it
  (`new` returns `Except` because its key comprehension can raise).
-/

/-- Universe of values a record attribute can hold: Python `None`, `str`,
`int`, `bool`, `list`, and nested string-keyed `dict`. -/
inductive Value where
  | none : Value
  | str : String → Value
  | int : Int → Value
  | bool : Bool → Value
  | list : List Value → Value
  | dict : List (String × Value) → Value

/-- Python truthiness `bool(x)`: `None`, `0`, `False`, and empty
strings/collections are falsy, everything else is truthy. -/
def Value.truthy : Value → Bool
  | .none => false
  | .str s => !(s == "")
  | .int n => !(n == 0)
  | .bool b => b
  | .list l => !l.isEmpty
  | .dict d => !d.isEmpty

/-- A record: a Python dict from attribute name to value, as an ordered
association list with unique keys. -/
abbrev Record := List (String × Value)

/-- The database snapshot: a Python-dict-like map from key to record. -/
abbrev Db := List (String × Record)

/-- One `(key, record)` item of the database, as produced by `db.items()`. -/
abbrev Item := String × Record

/-- A query predicate over one item, as built by `QueryConditions`. -/
abbrev Pred := Item → Bool

/-- Python `d.get(k)` / `k in d` lookup on an association-list dict:
the value at the first (and only) entry with key `k`, if any. -/
def alGet (l : List (String × α)) (k : String) : Option α :=
  match l with
  | [] => Option.none
  | (k', v) :: rest => if k' = k then Option.some v else alGet rest k

/-- Python `d[k] = v` on an association-list dict: replace the first entry
with key `k` in place, or append at the end if `k` is absent. -/
def alInsert (k : String) (v : α) : List (String × α) → List (String × α)
  | [] => [(k, v)]
  | (k', v') :: rest => if k' = k then (k, v) :: rest else (k', v') :: alInsert k v rest

/-- Python `del d[k]` on an association-list dict: drop the first entry with
key `k` (a no-op when `k` is absent; the callers below check presence first). -/
def alErase (k : String) : List (String × α) → List (String × α)
  | [] => []
  | (k', v') :: rest => if k' = k then rest else (k', v') :: alErase k rest

mutual
/-- Python `==` on the modelled value universe: structural equality, with
`bool` and `int` comparing through the numeric value of the bool, lists
comparing elementwise, dicts comparing as unordered key→value maps, and
any other cross-type comparison returning `False`. -/
def pyEq : Value → Value → Bool
  | .none, .none => true
  | .str a, .str b => a == b
  | .int a, .int b => a == b
  | .bool a, .bool b => a == b
  | .int a, .bool b => a == (if b then (1 : Int) else 0)
  | .bool a, .int b => (if a then (1 : Int) else 0) == b
  | .list a, .list b => pyEqList a b
  | .dict a, .dict b => a.length == b.length && pyEqEntries a b
  | _, _ => false
termination_by a b => sizeOf a + sizeOf b
/-- Elementwise Python `==` on lists. -/
def pyEqList : List Value → List Value → Bool
  | [], [] => true
  | a :: as, b :: bs => pyEq a b && pyEqList as bs
  | _, _ => false
termination_by a b => sizeOf a + sizeOf b
/-- Every entry of the first dict has a matching entry in the second. -/
def pyEqEntries : List (String × Value) → List (String × Value) → Bool
  | [], _ => true
  | (k, v) :: rest, b => pyEqLookup k v b && pyEqEntries rest b
termination_by a b => sizeOf a + sizeOf b
/-- Some entry of the dict has key `k` and a value Python-equal to `v`. -/
def pyEqLookup : String → Value → List (String × Value) → Bool
  | _, _, [] => false
  | k, v, (k', w) :: rest => if k == k' then pyEq v w else pyEqLookup k v rest
termination_by _ v b => sizeOf v + sizeOf b
end

mutual
/-- Python `>` on the modelled values: numeric comparison for `int`/`bool`
(a bool counts as `1`/`0`), lexicographic for strings, lexicographic
elementwise for lists. Comparisons that raise `TypeError` in Python
(mixed non-numeric types, `None`, dicts) are modelled as `False`; no claim
depends on a raising comparison. -/
def valueGt : Value → Value → Bool
  | .int a, .int b => a > b
  | .int a, .bool b => a > (if b then (1 : Int) else 0)
  | .bool a, .int b => (if a then (1 : Int) else 0) > b
  | .bool a, .bool b => (if a then (1 : Int) else 0) > (if b then (1 : Int) else 0)
  | .str a, .str b => decide (b < a)
  | .list a, .list b => valueGtList a b
  | _, _ => false
/-- Python list `>`: skip the longest common prefix of `==`-equal elements,
decide at the first unequal pair with `>`, and fall back to
`len(a) > len(b)` when one list is a prefix of the other. -/
def valueGtList : List Value → List Value → Bool
  | _ :: _, [] => true
  | [], _ => false
  | a :: as, b :: bs => if pyEq a b then valueGtList as bs else valueGt a b
end

/-- Substring test: Python `small in big` for strings. -/
def strContainsSub (big small : String) : Bool :=
  decide (small.toList <:+: big.toList)

/-- Python `y in x`: substring for strings, membership (via Python `==`)
for lists, key membership for dicts. Other combinations raise `TypeError`
in Python; no claim depends on them and they are modelled as `False`. -/
def pyContains (x y : Value) : Bool :=
  match x, y with
  | .str s, .str t => strContainsSub s t
  | .list l, _ => l.any (fun v => pyEq v y)
  | .dict d, .str t => (alGet d t).isSome
  | _, _ => false

namespace QueryConditions

/-- `QueryConditions._generate_lambda`: the predicate
`lambda item: item[1].get(column) and comparison_fn(item[1][column], value)`.
`item[1].get(column)` is `None` (falsy) when the column is absent, and the
Python `and` short-circuits on any falsy left operand, so the comparison
runs only when the column is present with a truthy value. -/
def _generate_lambda (column : String) (value : Value)
    (comparison_fn : Value → Value → Bool) : Pred :=
  fun item =>
    match alGet item.2 column with
    | Option.none => false
    | Option.some v => v.truthy && comparison_fn v value

/-- `QueryConditions.greater_than`: comparison `lambda x, y: x > y`. -/
def greater_than (column : String) (value : Value) : Pred :=
  _generate_lambda column value (fun x y => valueGt x y)

/-- `QueryConditions.equals`: comparison `lambda x, y: x == y`. -/
def equals (column : String) (value : Value) : Pred :=
  _generate_lambda column value (fun x y => pyEq x y)

/-- `QueryConditions.not_equals`: comparison `lambda x, y: x != y`. -/
def not_equals (column : String) (value : Value) : Pred :=
  _generate_lambda column value (fun x y => !(pyEq x y))

/-- `QueryConditions.contains`: comparison `lambda x, y: y in x`. -/
def contains (column : String) (value : Value) : Pred :=
  _generate_lambda column value (fun x y => pyContains x y)

/-- `QueryConditions.not_contains`: comparison `lambda x, y: y not in x`. -/
def not_contains (column : String) (value : Value) : Pred :=
  _generate_lambda column value (fun x y => !(pyContains x y))

/-- `QueryConditions.wildcard`: comparison `lambda x, y: fnmatch.fnmatch(x, y)`.
`fnmatch` is an external library; it is modelled as the abstract matcher
`fnmatchFn` applied when the column value is a string (`fnmatch` raises
`TypeError` on non-strings; modelled as `False`, no claim depends on it). -/
def wildcard (fnmatchFn : String → String → Bool) (column : String)
    (pattern : String) : Pred :=
  _generate_lambda column (Value.str pattern) (fun x y =>
    match x, y with
    | Value.str s, Value.str p => fnmatchFn s p
    | _, _ => false)

/-- `QueryConditions.regex`: comparison `lambda x, y: re.search(y, x)`,
whose truthiness (a match object or `None`) is what `filter` consumes.
`re.search` is an external library; it is modelled as the abstract matcher
`searchFn pattern s`. -/
def regex (searchFn : String → String → Bool) (column : String)
    (pattern : String) : Pred :=
  _generate_lambda column (Value.str pattern) (fun x y =>
    match x, y with
    | Value.str s, Value.str p => searchFn p s
    | _, _ => false)

end QueryConditions

/-- Inclusive code-point ranges of the Unicode characters with
Numeric_Type=Decimal (category Nd), from the Unicode 14.0 character
database used by CPython: each range is the ten consecutive code points
for the digits 0–9 of one script, so a character's digit value is its
offset from the range start. `int()` accepts exactly these digit
characters, with that value. -/
def decimalDigitRanges : List (Nat × Nat) := [
  (48, 57), (1632, 1641), (1776, 1785), (1984, 1993),
  (2406, 2415), (2534, 2543), (2662, 2671), (2790, 2799),
  (2918, 2927), (3046, 3055), (3174, 3183), (3302, 3311),
  (3430, 3439), (3558, 3567), (3664, 3673), (3792, 3801),
  (3872, 3881), (4160, 4169), (4240, 4249), (6112, 6121),
  (6160, 6169), (6470, 6479), (6608, 6617), (6784, 6793),
  (6800, 6809), (6992, 7001), (7088, 7097), (7232, 7241),
  (7248, 7257), (42528, 42537), (43216, 43225), (43264, 43273),
  (43472, 43481), (43504, 43513), (43600, 43609), (44016, 44025),
  (65296, 65305), (66720, 66729), (68912, 68921), (69734, 69743),
  (69872, 69881), (69942, 69951), (70096, 70105), (70384, 70393),
  (70736, 70745), (70864, 70873), (71248, 71257), (71360, 71369),
  (71472, 71481), (71904, 71913), (72016, 72025), (72784, 72793),
  (73040, 73049), (73120, 73129), (92768, 92777), (92864, 92873),
  (93008, 93017), (120782, 120791), (120792, 120801), (120802, 120811),
  (120812, 120821), (120822, 120831), (123200, 123209), (123632, 123641),
  (125264, 125273), (130032, 130041)]

/-- Inclusive code-point ranges of the Unicode characters with
Numeric_Type=Digit (and not Decimal) — superscripts, subscripts, circled
and similar digits, Unicode 14.0 as used by CPython. `str.isdigit` accepts
them, but `int()` rejects them with `ValueError`; `"²"` (code point 178)
is the canonical example. -/
def digitOnlyRanges : List (Nat × Nat) := [
  (178, 179), (185, 185), (4969, 4977), (6618, 6618),
  (8304, 8304), (8308, 8313), (8320, 8329), (9312, 9320),
  (9332, 9340), (9352, 9360), (9450, 9450), (9461, 9469),
  (9471, 9471), (10102, 10110), (10112, 10120), (10122, 10130),
  (68160, 68163), (69216, 69224), (69714, 69722), (127232, 127242)]

/-- The decimal digit value of a character: `Option.some` of its offset in
its `decimalDigitRanges` range, `Option.none` for every other character.
This is the per-character acceptance of Python's `int()`. -/
def charDecimalValue (c : Char) : Option Nat :=
  match decimalDigitRanges.find? (fun r => decide (r.1 ≤ c.toNat) && decide (c.toNat ≤ r.2)) with
  | Option.some r => Option.some (c.toNat - r.1)
  | Option.none => Option.none

/-- Per-character Python `str.isdigit`: Numeric_Type=Decimal or
Numeric_Type=Digit. -/
def charIsDigitPy (c : Char) : Bool :=
  (charDecimalValue c).isSome ||
    digitOnlyRanges.any (fun r => decide (r.1 ≤ c.toNat) && decide (c.toNat ≤ r.2))

/-- Python `str.isdigit()`: non-empty and every character a digit character
(Numeric_Type=Decimal or Digit). Accepts `"٣"` and `"²"` as well as
`"123"`. -/
def pyIsDigit (s : String) : Bool :=
  !(s == "") && s.toList.all charIsDigitPy

/-- The decimal digit values of a character list: `Option.some` of the
value list when every character is a decimal digit, else `Option.none`. -/
def decimalValues : List Char → Option (List Nat)
  | [] => Option.some []
  | c :: cs =>
    match charDecimalValue c with
    | Option.some d => (decimalValues cs).map (fun ds => d :: ds)
    | Option.none => Option.none

/-- The base-10 value of a digit-value list, arbitrary precision. -/
def ofDigits (ds : List Nat) : Nat :=
  ds.foldl (fun n d => n * 10 + d) 0

/-- Python `int(s)` on the strings `ShelveDB.new` can feed it (non-empty,
every character a digit character per `isdigit`): succeeds exactly when
every character is a decimal (Numeric_Type=Decimal) digit, returning the
arbitrary-precision base-10 value, and raises `ValueError` otherwise —
e.g. on `"²"`, which passes `isdigit`. (Wider `int` syntax — signs,
whitespace, underscores — cannot pass `isdigit` and is not modelled.) -/
def pyInt (s : String) : Except String Nat :=
  match decimalValues s.toList with
  | Option.some ds => if ds.isEmpty then Except.error "ValueError" else Except.ok (ofDigits ds)
  | Option.none => Except.error "ValueError"

/-- Parse of an ASCII decimal-digit string as an arbitrary-precision
natural number, used by the spec-side `allocateSpec`. -/
def strToNat (s : String) : Nat :=
  s.toList.foldl (fun n c => n * 10 + (c.toNat - 48)) 0

/-- A string consisting solely of decimal digits `0`–`9`, the spec's §3/§4.1
reading of a numeric key (its examples are all ASCII). Python's
`str.isdigit` (see `pyIsDigit`) accepts strictly more strings. -/
def isDecimalDigits (s : String) : Bool :=
  !(s == "") && s.toList.all Char.isDigit

/-- Python `max` over a list of naturals, as a `0`-seeded fold; it agrees
with Python's `max` on every non-empty list, and `new` only applies it to
non-empty lists. -/
def maxList (l : List Nat) : Nat :=
  l.foldl Nat.max 0

namespace ShelveDB

/-- The comprehension `[int(key) for key in db.keys() if key.isdigit()]`
of `ShelveDB.new`: keys failing `isdigit` are skipped; each passing key is
handed to `int()`, whose first `ValueError` (an `isdigit`-true key with a
non-decimal digit character, e.g. `"²"`) escapes the comprehension. -/
def intKeys : List String → Except String (List Nat)
  | [] => Except.ok []
  | k :: ks =>
    if pyIsDigit k then
      match pyInt k with
      | Except.error e => Except.error e
      | Except.ok n =>
        match intKeys ks with
        | Except.error e => Except.error e
        | Except.ok ns => Except.ok (n :: ns)
    else intKeys ks

/-- `ShelveDB.new`: collect the `int` values of the `isdigit`-true keys
(this can raise `ValueError`, which propagates to the caller), allocate
`str(max(keys) + 1)` if that list is non-empty and `"1"` otherwise, store
the record there, and return the key. -/
def new (value : Record) (db : Db) : Except String (String × Db) :=
  match intKeys (db.map Prod.fst) with
  | Except.error e => Except.error e
  | Except.ok keys =>
    let new_key : String := if keys.isEmpty then "1" else toString (maxList keys + 1)
    Except.ok (new_key, alInsert new_key value db)

/-- `ShelveDB.insert`: `self.db[key] = value`, an unconditional write. -/
def insert (key : String) (value : Record) (db : Db) : Db :=
  alInsert key value db

/-- Python `dict.update`: write every entry of `new_values` into
`current_values` in order (overwrite an existing attribute, append a new
one). -/
def dictUpdate (current_values new_values : Record) : Record :=
  new_values.foldl (fun acc kv => alInsert kv.1 kv.2 acc) current_values

/-- `ShelveDB.update`: if the key is present, merge the new values into the
stored record with `dict.update` and store the result; otherwise do
nothing. -/
def update (key : String) (new_values : Record) (db : Db) : Db :=
  match alGet db key with
  | Option.none => db
  | Option.some current_values => alInsert key (dictUpdate current_values new_values) db

/-- `ShelveDB.delete`: if the key is present, `del self.db[key]`; otherwise
do nothing. -/
def delete (key : String) (db : Db) : Db :=
  if (alGet db key).isSome then alErase key db else db

/-- `ShelveDB.clear`: `self.db.clear()`. -/
def clear (_db : Db) : Db :=
  []

/-- The filtering loop of `ShelveDB.query`: apply each condition in order
with `filter`, narrowing the item list. -/
def applyConds (conditions : List Pred) (items : Db) : Db :=
  conditions.foldl (fun its c => its.filter c) items

/-- The projection of `ShelveDB.query`:
`{column: value[column] for column in select_columns if column in value}`. -/
def projectRecord (select_columns : List String) (value : Record) : Record :=
  select_columns.foldl (fun acc column =>
    match alGet value column with
    | Option.none => acc
    | Option.some v => alInsert column v acc) []

/-- `ShelveDB.query`: filter all items by the conditions in order
(`conditions = None` becomes the empty list, modelled as `[]`), then either
return the surviving items as a dict, or project each surviving record to
the selected columns. -/
def query (conditions : List Pred) (select_columns : Option (List String))
    (db : Db) : Db :=
  let items := applyConds conditions db
  match select_columns with
  | Option.none => items
  | Option.some cols => items.map (fun kv => (kv.1, projectRecord cols kv.2))

end ShelveDB

/-- A fallible predicate: evaluating a `QueryConditions` predicate in Python
can raise (e.g. `re.error` from a malformed regex pattern, `TypeError` from
a type-confused comparison); `Except` models the raised exception. -/
abbrev PredE := Item → Except String Bool

/-- A total predicate viewed as a fallible one that never raises. -/
def liftPred (p : Pred) : PredE :=
  fun item => Except.ok (p item)

/-- Fallible form of `QueryConditions._generate_lambda`: the truthiness
gate is evaluated first and short-circuits (Python `and`), so the
comparison — the only part that can raise — runs only when the column is
present with a truthy value. -/
def generate_lambdaE (column : String) (value : Value)
    (comparison_fn : Value → Value → Except String Bool) : PredE :=
  fun item =>
    match alGet item.2 column with
    | Option.none => Except.ok false
    | Option.some v =>
      if v.truthy then comparison_fn v value else Except.ok false

/-- Fallible form of `QueryConditions.regex`: `re.search(pattern, s)` is the
abstract fallible matcher `searchFn pattern s` (a malformed pattern raises
`re.error` when the search is first evaluated), and a non-string column
value raises `TypeError`. -/
def regexE (searchFn : String → String → Except String Bool) (column : String)
    (pattern : String) : PredE :=
  generate_lambdaE column (Value.str pattern) (fun x _ =>
    match x with
    | Value.str s => searchFn pattern s
    | _ => Except.error "TypeError")

/-- `filter` over a fallible predicate: evaluate the predicate on each item
in order; the first raised exception aborts the whole pass (the matches
spell out `Except` bind). -/
def filterME (p : PredE) : Db → Except String Db
  | [] => Except.ok []
  | item :: rest =>
    match p item with
    | Except.error e => Except.error e
    | Except.ok b =>
      match filterME p rest with
      | Except.error e => Except.error e
      | Except.ok tail => Except.ok (if b then item :: tail else tail)

/-- The filtering loop of `ShelveDB.query` over fallible predicates. -/
def applyCondsE : List PredE → Db → Except String Db
  | [], items => Except.ok items
  | c :: cs, items =>
    match filterME c items with
    | Except.error e => Except.error e
    | Except.ok items2 => applyCondsE cs items2

/-- `ShelveDB.query` over fallible predicates: the result is delivered only
after every predicate evaluation has succeeded; any exception raised during
predicate evaluation aborts the call with no result. -/
def queryE (conditions : List PredE) (select_columns : Option (List String))
    (db : Db) : Except String Db :=
  match applyCondsE conditions db with
  | Except.error e => Except.error e
  | Except.ok items =>
    Except.ok (match select_columns with
      | Option.none => items
      | Option.some cols => items.map (fun kv => (kv.1, ShelveDB.projectRecord cols kv.2)))

/-- Whether a fallible call returned a result (rather than raising). -/
def exceptIsOk : Except ε α → Bool
  | Except.ok _ => true
  | Except.error _ => false

/-- The Key Allocator contract as the spec words it (§4.1): filter the
existing keys to those consisting solely of decimal digits, parse each as
an arbitrary-precision non-negative integer, return the string form of
(maximum + 1) when the filtered set is non-empty and `"1"` otherwise.
Stated separately from `ShelveDB.new` so the two can be compared. -/
def allocateSpec (existingKeys : List String) : String :=
  let numeric := existingKeys.filter isDecimalDigits
  let parsed := numeric.map strToNat
  if parsed.isEmpty then "1" else toString (maxList parsed + 1)

theorem alGet_alInsert_self (k : String) (v : α) (l : List (String × α)) :
    alGet (alInsert k v l) k = Option.some v := by
  induction l with
  | nil => simp [alInsert, alGet]
  | cons hd tl ih =>
    obtain ⟨k', v'⟩ := hd
    by_cases h : k' = k
    · simp [alInsert, alGet, h]
    · simp [alInsert, alGet, h, ih]

theorem alGet_alInsert_ne (k k' : String) (v : α) (l : List (String × α))
    (h : k' ≠ k) : alGet (alInsert k v l) k' = alGet l k' := by
  have hne : ¬ k = k' := fun e => h e.symm
  induction l with
  | nil => simp [alInsert, alGet, hne]
  | cons hd tl ih =>
    obtain ⟨k'', v''⟩ := hd
    by_cases h2 : k'' = k
    · subst h2
      simp [alInsert, alGet, hne]
    · simp [alInsert, alGet, h2, ih]

theorem alGet_eq_none_of_not_mem (k : String) (l : List (String × α))
    (h : k ∉ l.map Prod.fst) : alGet l k = Option.none := by
  induction l with
  | nil => simp [alGet]
  | cons hd tl ih =>
    obtain ⟨k', v'⟩ := hd
    simp only [List.map_cons, List.mem_cons] at h
    push_neg at h
    have hne : ¬ k' = k := fun e => h.1 e.symm
    simp [alGet, hne, ih h.2]

theorem mem_applyConds (conditions : List Pred) (items : Db) (item : Item) :
    item ∈ ShelveDB.applyConds conditions items ↔
      item ∈ items ∧ ∀ c ∈ conditions, c item = true := by
  induction conditions generalizing items with
  | nil => simp [ShelveDB.applyConds]
  | cons c cs ih =>
    have step : ShelveDB.applyConds (c :: cs) items =
        ShelveDB.applyConds cs (items.filter c) := rfl
    rw [step, ih]
    simp [List.mem_filter, and_assoc]

theorem alGet_dictUpdate (current_values new_values : Record) (c : String)
    (h : (new_values.map Prod.fst).Nodup) :
    alGet (ShelveDB.dictUpdate current_values new_values) c =
      match alGet new_values c with
      | Option.some v => Option.some v
      | Option.none => alGet current_values c := by
  induction new_values generalizing current_values with
  | nil => simp [ShelveDB.dictUpdate, alGet]
  | cons hd tl ih =>
    obtain ⟨k, v⟩ := hd
    simp only [List.map_cons, List.nodup_cons] at h
    have step : ShelveDB.dictUpdate current_values ((k, v) :: tl) =
        ShelveDB.dictUpdate (alInsert k v current_values) tl := rfl
    rw [step, ih _ h.2]
    by_cases h2 : k = c
    · subst h2
      have : alGet tl k = Option.none := by
        apply alGet_eq_none_of_not_mem
        exact h.1
      simp [this, alGet, alGet_alInsert_self]
    · simp [alGet, fun e : k = c => h2 e, alGet_alInsert_ne k c v current_values
        (fun e => h2 e.symm)]

theorem alGet_nil (k : String) : alGet ([] : List (String × α)) k = Option.none :=
  rfl

theorem alGet_project_aux (value : Record) (cols : List String) (acc : Record)
    (c : String) :
    alGet (cols.foldl (fun acc column =>
      match alGet value column with
      | Option.none => acc
      | Option.some v => alInsert column v acc) acc) c =
      if c ∈ cols ∧ (alGet value c).isSome then alGet value c else alGet acc c := by
  induction cols generalizing acc with
  | nil => simp
  | cons col cs ih =>
    rw [List.foldl_cons, ih]
    by_cases hc : col = c
    · subst hc
      cases hv : alGet value col with
      | none => simp [hv]
      | some v => simp [hv, alGet_alInsert_self]
    · have hcc : c ≠ col := fun e => hc e.symm
      cases hv : alGet value col with
      | none => simp [hv, hcc]
      | some v => simp [hv, hcc, alGet_alInsert_ne col c v acc hcc]

theorem alGet_projectRecord (cols : List String) (value : Record) (c : String) :
    alGet (ShelveDB.projectRecord cols value) c =
      if c ∈ cols then alGet value c else Option.none := by
  unfold ShelveDB.projectRecord
  rw [alGet_project_aux, alGet_nil]
  by_cases h1 : c ∈ cols
  · by_cases h2 : (alGet value c).isSome
    · simp [h1, h2]
    · have h3 : alGet value c = Option.none := by
        cases hv : alGet value c with
        | none => rfl
        | some v => rw [hv] at h2; simp at h2
      simp [h1, h3]
  · simp [h1]

theorem projectRecord_eq_nil (cols : List String) (value : Record) :
    (∀ c ∈ cols, alGet value c = Option.none) →
      ShelveDB.projectRecord cols value = [] := by
  unfold ShelveDB.projectRecord
  induction cols with
  | nil => intro _; rfl
  | cons col cs ih =>
    intro h
    simp only [List.foldl_cons, h col (List.mem_cons_self col cs)]
    exact ih (fun c hc => h c (List.mem_cons_of_mem col hc))

theorem filterME_error (p : PredE) (items : Db) (item : Item) (e : String)
    (hmem : item ∈ items) (herr : p item = Except.error e) :
    ∃ e2, filterME p items = Except.error e2 := by
  induction items with
  | nil => cases hmem
  | cons hd tl ih =>
    cases List.mem_cons.mp hmem with
    | inl heq =>
      subst heq
      exact ⟨e, by simp [filterME, herr]⟩
    | inr htl =>
      cases hb : p hd with
      | error e3 => exact ⟨e3, by simp [filterME, hb]⟩
      | ok b =>
        obtain ⟨e2, h2⟩ := ih htl
        exact ⟨e2, by simp [filterME, hb, h2]⟩

theorem applyCondsE_append (cs1 cs2 : List PredE) (items : Db) :
    applyCondsE (cs1 ++ cs2) items =
      match applyCondsE cs1 items with
      | Except.error e => Except.error e
      | Except.ok items2 => applyCondsE cs2 items2 := by
  induction cs1 generalizing items with
  | nil => simp [applyCondsE]
  | cons c cs ih =>
    cases hf : filterME c items with
    | error e => simp [applyCondsE, List.cons_append, hf]
    | ok its => simp [applyCondsE, List.cons_append, hf, ih]

/-- C1: every predicate built by the Query Engine (`greater_than`, `equals`,
`not_equals`, `contains`, `not_contains`, `wildcard`, `regex` — all
instances of `_generate_lambda`) evaluates to false on any item whose
named column is absent from the record or holds a falsy value (`None`,
`0`, `False`, or an empty string/collection — exactly the values with
`Value.truthy = false`), regardless of the comparison; in particular
`equals "age" 0` never matches a record whose `age` attribute is `0`. -/
theorem falsy_gate_blocks_all_predicates
    (column : String) (value : Value) (pattern : String)
    (fnmatchFn searchFn : String → String → Bool)
    (k : String) (r : Record)
    (h : ∀ v, alGet r column = Option.some v → v.truthy = false) :
    (∀ comparison_fn, QueryConditions._generate_lambda column value comparison_fn (k, r) = false) ∧
    QueryConditions.greater_than column value (k, r) = false ∧
    QueryConditions.equals column value (k, r) = false ∧
    QueryConditions.not_equals column value (k, r) = false ∧
    QueryConditions.contains column value (k, r) = false ∧
    QueryConditions.not_contains column value (k, r) = false ∧
    QueryConditions.wildcard fnmatchFn column pattern (k, r) = false ∧
    QueryConditions.regex searchFn column pattern (k, r) = false := by
  have key : ∀ (value2 : Value) (cmp : Value → Value → Bool),
      QueryConditions._generate_lambda column value2 cmp (k, r) = false := by
    intro value2 cmp
    unfold QueryConditions._generate_lambda
    cases hv : alGet r column with
    | none => rfl
    | some v => simp [h v hv]
  exact ⟨fun cmp => key value cmp, key _ _, key _ _, key _ _, key _ _, key _ _,
    key _ _, key _ _⟩

/-- Witness for C1: on the record `{"age": 0}`, the predicate
`equals("age", 0)` evaluates to false even though the stored age is `0`. -/
theorem falsy_gate_blocks_all_predicates_witness :
    QueryConditions.equals "age" (Value.int 0) ("1", [("age", Value.int 0)]) = false :=
  (falsy_gate_blocks_all_predicates "age" (Value.int 0) "" (fun _ _ => true)
    (fun _ _ => true) "1" [("age", Value.int 0)]
    (by
      intro v hv
      simp [alGet] at hv
      rw [← hv]
      rfl)).2.2.1

/-- C2: evaluation of `ShelveDB.new` against the Key Allocator contract
`allocateSpec`. The claim's concrete examples hold — keys `{"1", "2"}`
allocate `"3"`, an empty store allocates `"1"`, a store with only `"abc"`
allocates `"1"` — but the universal contract fails on the code: on a store
whose only key is `"²"` (SUPERSCRIPT TWO: `isdigit` true, `int` raises),
`new` raises `ValueError` instead of returning `"1"`, and on a store whose
only key is `"٣"` (ARABIC-INDIC DIGIT THREE: `isdigit` true, `int` value
`3`), `new` returns `"4"` where the decimal-digit contract returns `"1"`. -/
theorem new_diverges_from_allocation_contract :
    ShelveDB.new [] [("1", []), ("2", [])] =
      Except.ok ("3", [("1", []), ("2", []), ("3", [])]) ∧
    ShelveDB.new [] [] = Except.ok ("1", [("1", [])]) ∧
    ShelveDB.new [] [("abc", [])] = Except.ok ("1", [("abc", []), ("1", [])]) ∧
    ShelveDB.new [] [("²", [])] = Except.error "ValueError" ∧
    allocateSpec ["²"] = "1" ∧
    ShelveDB.new [] [("٣", [])] = Except.ok ("4", [("٣", []), ("4", [])]) ∧
    allocateSpec ["٣"] = "1" :=
  ⟨rfl, rfl, rfl, rfl, rfl, rfl, rfl⟩

/-- C3: for a key present with record `r`, `update k p` replaces the stored
record by the shallow merge `dictUpdate r p`: every attribute of `p`
overwrites or is added, attributes only in `r` are untouched, and the
merged value at any attribute of `p` is exactly `p`'s value (so nested
mappings from `p` replace the old value wholesale, never recursively
merged); e.g. updating `{"name": "Alice", "age": 30, "city": "LA"}` with
`{"age": 31, "city": "SF"}` yields
`{"name": "Alice", "age": 31, "city": "SF"}`. -/
theorem update_is_shallow_merge
    (db : Db) (k : String) (r p : Record)
    (hmem : alGet db k = Option.some r)
    (hnodup : (p.map Prod.fst).Nodup) :
    alGet (ShelveDB.update k p db) k = Option.some (ShelveDB.dictUpdate r p) ∧
    (∀ c, alGet (ShelveDB.dictUpdate r p) c =
      match alGet p c with
      | Option.some v => Option.some v
      | Option.none => alGet r c) ∧
    ShelveDB.update "2" [("age", Value.int 31), ("city", Value.str "SF")]
      [("2", [("name", Value.str "Alice"), ("age", Value.int 30),
        ("city", Value.str "LA")])] =
      [("2", [("name", Value.str "Alice"), ("age", Value.int 31),
        ("city", Value.str "SF")])] := by
  refine ⟨?_, fun c => alGet_dictUpdate r p c hnodup, rfl⟩
  unfold ShelveDB.update
  rw [hmem]
  exact alGet_alInsert_self k _ db

/-- Witness for C3: the documented merge example, read back from the store
after the update. -/
theorem update_is_shallow_merge_witness :
    ShelveDB.update "2" [("age", Value.int 31), ("city", Value.str "SF")]
      [("2", [("name", Value.str "Alice"), ("age", Value.int 30),
        ("city", Value.str "LA")])] =
      [("2", [("name", Value.str "Alice"), ("age", Value.int 31),
        ("city", Value.str "SF")])] :=
  (update_is_shallow_merge
    [("2", [("name", Value.str "Alice"), ("age", Value.int 30),
      ("city", Value.str "LA")])]
    "2"
    [("name", Value.str "Alice"), ("age", Value.int 30), ("city", Value.str "LA")]
    [("age", Value.int 31), ("city", Value.str "SF")]
    rfl
    (by simp)).2.2

/-- C5: `insert k r` writes `r` at `k` unconditionally (replacing any prior
value in full and never touching other keys, with no error on an existing
key), and a subsequent read of `k` from `query` with no predicates and no
projection returns `r` exactly. -/
theorem insert_then_read
    (db : Db) (k : String) (r : Record) (k' : String) (hk : k' ≠ k) :
    alGet (ShelveDB.query [] Option.none (ShelveDB.insert k r db)) k = Option.some r ∧
    alGet (ShelveDB.insert k r db) k' = alGet db k' := by
  constructor
  · show alGet (alInsert k r db) k = Option.some r
    exact alGet_alInsert_self k r db
  · exact alGet_alInsert_ne k k' r db hk

/-- Witness for C5: overwriting the existing key `"1"` and reading it back
through `query`, while key `"2"` is untouched. -/
theorem insert_then_read_witness :
    alGet (ShelveDB.query [] Option.none
      (ShelveDB.insert "1" [("name", Value.str "New")]
        [("1", [("name", Value.str "Old")]), ("2", [("age", Value.int 7)])])) "1" =
      Option.some [("name", Value.str "New")] ∧
    alGet (ShelveDB.insert "1" [("name", Value.str "New")]
      [("1", [("name", Value.str "Old")]), ("2", [("age", Value.int 7)])]) "2" =
      alGet [("1", [("name", Value.str "Old")]), ("2", [("age", Value.int 7)])] "2" :=
  insert_then_read
    [("1", [("name", Value.str "Old")]), ("2", [("age", Value.int 7)])]
    "1" [("name", Value.str "New")] "2" (by decide)

/-- C6: on a key absent from the store, both `update` (with any partial
record) and `delete` return without error and leave the entire store
unchanged; in particular `update` does not create the key. -/
theorem absent_key_update_delete_noop
    (db : Db) (k : String) (p : Record) (h : alGet db k = Option.none) :
    ShelveDB.update k p db = db ∧ ShelveDB.delete k db = db := by
  constructor
  · unfold ShelveDB.update
    rw [h]
  · unfold ShelveDB.delete
    rw [h]
    rfl

/-- Witness for C6: updating and deleting the absent key `"2"` leaves the
one-record store unchanged. -/
theorem absent_key_update_delete_noop_witness :
    ShelveDB.update "2" [("x", Value.int 1)] [("1", [])] = [("1", [])] ∧
    ShelveDB.delete "2" [("1", [])] = [("1", [])] :=
  absent_key_update_delete_noop [("1", [])] "2" [("x", Value.int 1)] rfl

/-- C4: `query` applies every predicate in order as a logical AND over the
snapshot of all items (an item survives iff it is in the database and every
predicate holds of it; the empty predicate list passes all records), and
with `select_columns` it returns, for each surviving key, a new record
whose lookup at a column is the original record's value when the column
was requested and present, and nothing otherwise (absent requested columns
are silently omitted); concretely, over
`{"1": {"name": "John", "age": 25, "city": "NY"},
  "2": {"name": "Alice", "age": 31, "city": "SF"}}`,
`query([greater_than("age", 30)], ["name", "city"])` returns exactly
`{"2": {"name": "Alice", "city": "SF"}}`. -/
theorem query_conjunctive_filter_and_projection
    (conditions : List Pred) (cols : List String) (db : Db)
    (item : Item) (value : Record) (c : String) :
    (item ∈ ShelveDB.applyConds conditions db ↔
      item ∈ db ∧ ∀ cond ∈ conditions, cond item = true) ∧
    (ShelveDB.query conditions Option.none db = ShelveDB.applyConds conditions db) ∧
    (ShelveDB.query conditions (Option.some cols) db =
      (ShelveDB.applyConds conditions db).map
        (fun kv => (kv.1, ShelveDB.projectRecord cols kv.2))) ∧
    (alGet (ShelveDB.projectRecord cols value) c =
      if c ∈ cols then alGet value c else Option.none) ∧
    (ShelveDB.query [QueryConditions.greater_than "age" (Value.int 30)]
      (Option.some ["name", "city"])
      [("1", [("name", Value.str "John"), ("age", Value.int 25),
        ("city", Value.str "NY")]),
       ("2", [("name", Value.str "Alice"), ("age", Value.int 31),
        ("city", Value.str "SF")])] =
      [("2", [("name", Value.str "Alice"), ("city", Value.str "SF")])]) :=
  ⟨mem_applyConds conditions db item, rfl, rfl,
    alGet_projectRecord cols value c, rfl⟩

/-- C7: evaluation of `ShelveDB.new` at inputs falsifying the claim.
Neither `"٣"` nor `"²"` consists solely of decimal digits `0`–`9`, yet
adding either to a store holding only the key `"1"` changes allocation:
`new` allocates `"2"` before, allocates `"4"` after inserting `"٣"`
(Python's `isdigit` accepts it and `int` parses it as `3`), and raises
`ValueError` after inserting `"²"` (`isdigit` accepts it, `int` rejects
it) — while the non-digit key `"abc"` is indeed ignored. -/
theorem nonnumeric_key_changes_allocation :
    isDecimalDigits "٣" = false ∧
    isDecimalDigits "²" = false ∧
    ShelveDB.new [] [("1", [])] = Except.ok ("2", [("1", []), ("2", [])]) ∧
    ShelveDB.new [] (ShelveDB.insert "٣" [] [("1", [])]) =
      Except.ok ("4", [("1", []), ("٣", []), ("4", [])]) ∧
    ShelveDB.new [] (ShelveDB.insert "²" [] [("1", [])]) = Except.error "ValueError" ∧
    ShelveDB.new [] (ShelveDB.insert "abc" [] [("1", [])]) =
      Except.ok ("2", [("1", []), ("abc", []), ("2", [])]) :=
  ⟨rfl, rfl, rfl, rfl, rfl, rfl⟩

/-- C9: `clear` removes every key→record pair, and a subsequent `query`
with no predicates and no selected columns returns the empty mapping. -/
theorem clear_then_query_empty (db : Db) :
    ShelveDB.clear db = [] ∧
    ShelveDB.query [] Option.none (ShelveDB.clear db) = [] :=
  ⟨rfl, rfl⟩

/-- C10: a record that survives all predicates but contains none of the
requested columns still appears in the projected query result under its
original key, mapped to the empty attribute map — the key is never dropped
because projection removed all attributes. -/
theorem empty_projection_keeps_key
    (conditions : List Pred) (cols : List String) (db : Db)
    (k : String) (r : Record)
    (hmem : (k, r) ∈ ShelveDB.applyConds conditions db)
    (habs : ∀ c ∈ cols, alGet r c = Option.none) :
    (k, ([] : Record)) ∈ ShelveDB.query conditions (Option.some cols) db := by
  have hproj : ShelveDB.projectRecord cols r = [] := projectRecord_eq_nil cols r habs
  show (k, ([] : Record)) ∈ (ShelveDB.applyConds conditions db).map
    (fun kv => (kv.1, ShelveDB.projectRecord cols kv.2))
  rw [← hproj]
  exact List.mem_map_of_mem (fun kv => (kv.1, ShelveDB.projectRecord cols kv.2)) hmem

/-- Witness for C10: the record `{"name": "John"}` survives the empty
predicate list, has no `"salary"` column, and still appears under key
`"1"` with an empty attribute map. -/
theorem empty_projection_keeps_key_witness :
    ("1", ([] : Record)) ∈ ShelveDB.query [] (Option.some ["salary"])
      [("1", [("name", Value.str "John")])] :=
  empty_projection_keeps_key [] ["salary"] [("1", [("name", Value.str "John")])]
    "1" [("name", Value.str "John")]
    (List.mem_singleton.mpr rfl)
    (by
      intro c hc
      rw [List.mem_singleton] at hc
      rw [hc]
      rfl)

/-- C8: a malformed regex pattern (one on which the external `re.search`
raises for every subject string) supplied to a `regex` predicate aborts the
whole query at predicate evaluation time: as soon as any record that
reaches the predicate has the named column present and truthy, the query
call raises instead of returning a result — no partial result is ever
delivered (the `Except`-valued `queryE` returns a result only when every
predicate evaluation over every record succeeded). -/
theorem malformed_regex_aborts_query
    (searchFn : String → String → Except String Bool)
    (column pattern : String) (cs1 cs2 : List PredE)
    (select_columns : Option (List String)) (db : Db)
    (items1 : Db) (item : Item) (v : Value) (e : String)
    (hbad : ∀ s, searchFn pattern s = Except.error e)
    (h1 : applyCondsE cs1 db = Except.ok items1)
    (hmem : item ∈ items1)
    (hcol : alGet item.2 column = Option.some v)
    (htruthy : v.truthy = true) :
    exceptIsOk (queryE (cs1 ++ regexE searchFn column pattern :: cs2)
      select_columns db) = false := by
  have herr : ∃ e2, regexE searchFn column pattern item = Except.error e2 := by
    unfold regexE generate_lambdaE
    rw [hcol]
    cases v with
    | str s => exact ⟨e, by simp [htruthy, hbad s]⟩
    | none => exact ⟨"TypeError", by simp [htruthy]⟩
    | int n => exact ⟨"TypeError", by simp [htruthy]⟩
    | bool b => exact ⟨"TypeError", by simp [htruthy]⟩
    | list l => exact ⟨"TypeError", by simp [htruthy]⟩
    | dict d => exact ⟨"TypeError", by simp [htruthy]⟩
  obtain ⟨e2, herr2⟩ := herr
  obtain ⟨e3, h3⟩ :=
    filterME_error (regexE searchFn column pattern) items1 item e2 hmem herr2
  simp [queryE, applyCondsE_append, h1, applyCondsE, h3, exceptIsOk]

/-- Witness for C8: with every `re.search` on the malformed pattern `"["`
raising, a query over a store holding `{"name": "John"}` with the single
predicate `regex("name", "[")` raises instead of returning a result. -/
theorem malformed_regex_aborts_query_witness :
    exceptIsOk (queryE [regexE (fun _ _ => Except.error "re.error") "name" "["]
      Option.none [("1", [("name", Value.str "John")])]) = false :=
  malformed_regex_aborts_query (fun _ _ => Except.error "re.error") "name" "["
    [] [] Option.none [("1", [("name", Value.str "John")])]
    [("1", [("name", Value.str "John")])] ("1", [("name", Value.str "John")])
    (Value.str "John") "re.error"
    (fun _ => rfl) rfl (List.mem_singleton.mpr rfl) rfl rfl
